import Mathlib

/-!
# Digital Ecology Sensing Network — verification development

Shallow embedding of the acoustic bird-monitoring pipeline:
the Recorder's rolling chunk buffer and flush logic
(`src/modules/audio_recording.py`), the Classifier Poller's ledger update
and file lifecycle (`src/modules/birdnet_analyzer.py`,
`src/birdnet_analyzer.py`), and the Image Fetcher's change-only polling
(`src/modules/birdnet_image_demo.py`).

Timestamps are modelled as whole seconds since the Unix epoch (`Nat`), the
domain produced by `time.time()` truncated to whole seconds; the local
clock is modelled as a fixed-offset (UTC-like) clock with no DST, so
`datetime.fromtimestamp` and `datetime.timestamp` are the proleptic
Gregorian conversions below (greedy era / century / quadrennium / year
decomposition, shifted by 719468 days so all arithmetic stays in `Nat`).
-/

namespace DESN

/-! ## Civil calendar (model of Python `datetime` date conversions)

The conversion between day counts and Gregorian civil dates uses the
March-based year: day 0 of the shifted count is 0000-03-01, which lies
719468 days before 1970-01-01. An era is 400 years = 146097 days; a
century (here) is 36524 days; a quadrennium is 1461 days. -/

/-- A Gregorian civil date, as held by a Python `datetime`'s date part. -/
structure Date where
  year : Nat
  month : Nat
  day : Nat
  deriving DecidableEq, Repr

/-- Era index (blocks of 400 years) of day `z` (days since 1970-01-01). -/
def cfdEra (z : Nat) : Nat := (z + 719468) / 146097

/-- Day-of-era (0..146096) of day `z`. -/
def cfdDoe (z : Nat) : Nat := (z + 719468) % 146097

/-- Century-of-era (0..3); the last century absorbs the era's leap day. -/
def cfdC (z : Nat) : Nat := min (cfdDoe z / 36524) 3

/-- Day-of-century (0..36524; 36524 only in the era's final century). -/
def cfdDoc (z : Nat) : Nat := cfdDoe z - 36524 * cfdC z

/-- Quadrennium-of-century (0..24). -/
def cfdQ (z : Nat) : Nat := cfdDoc z / 1461

/-- Day-of-quadrennium (0..1460). -/
def cfdDoq (z : Nat) : Nat := cfdDoc z - 1461 * cfdQ z

/-- Year-of-quadrennium (0..3); the fourth year holds the leap day. -/
def cfdYq (z : Nat) : Nat := min (cfdDoq z / 365) 3

/-- Year-of-era (0..399) of day `z`. -/
def cfdYoe (z : Nat) : Nat := 100 * cfdC z + 4 * cfdQ z + cfdYq z

/-- Day-of-year (0..365) of day `z` within its March-based year. -/
def cfdDoy (z : Nat) : Nat := cfdDoq z - 365 * cfdYq z

/-- Month index (0 = March .. 11 = February) of day `z`. -/
def cfdMp (z : Nat) : Nat := (5 * cfdDoy z + 2) / 153

/-- Day-of-month (1-based) of day `z`. -/
def cfdDay (z : Nat) : Nat := cfdDoy z - (153 * cfdMp z + 2) / 5 + 1

/-- `datetime.fromtimestamp`'s date part: convert days since 1970-01-01 to
a Gregorian civil date. -/
def civilFromDays (z : Nat) : Date :=
  { year := if cfdMp z < 10 then cfdYoe z + cfdEra z * 400 else cfdYoe z + cfdEra z * 400 + 1
    month := if cfdMp z < 10 then cfdMp z + 3 else cfdMp z - 9
    day := cfdDay z }

/-- `datetime.timestamp`'s date part: days since 1970-01-01 of a Gregorian
civil date (defined for dates on or after the epoch). -/
def daysFromCivil (y m d : Nat) : Nat :=
  let ya := if m ≤ 2 then y - 1 else y
  let era := ya / 400
  let yoe := ya % 400
  let mp := if 2 < m then m - 3 else m + 9
  let doy := (153 * mp + 2) / 5 + d - 1
  era * 146097 + yoe / 100 * 36524 + yoe % 100 / 4 * 1461 + yoe % 4 * 365 + doy - 719468

/-- Bounds for the century decomposition of a day-of-era. -/
theorem cfdC_facts (z : Nat) :
    cfdC z ≤ 3 ∧ 36524 * cfdC z ≤ cfdDoe z ∧ cfdDoc z ≤ 36524 ∧
      (cfdC z < 3 → cfdDoc z < 36524) := by
  have h : cfdDoe z < 146097 := Nat.mod_lt _ (by norm_num)
  have hc : cfdC z = min (cfdDoe z / 36524) 3 := rfl
  have hdoc : cfdDoc z = cfdDoe z - 36524 * cfdC z := rfl
  omega

/-- Bounds for the quadrennium decomposition of a day-of-century. -/
theorem cfdQ_facts (z : Nat) :
    cfdQ z ≤ 24 ∧ 1461 * cfdQ z ≤ cfdDoc z ∧ cfdDoq z ≤ 1460 := by
  have h := cfdC_facts z
  have hq : cfdQ z = cfdDoc z / 1461 := rfl
  have hdoq : cfdDoq z = cfdDoc z - 1461 * cfdQ z := rfl
  omega

/-- Bounds for the year decomposition of a day-of-quadrennium: a
day-of-year of 365 (a February 29) only occurs in the final year of a full
quadrennium. -/
theorem cfdYq_facts (z : Nat) :
    cfdYq z ≤ 3 ∧ 365 * cfdYq z ≤ cfdDoq z ∧ cfdDoy z ≤ 365 ∧
      (cfdDoy z = 365 → cfdYq z = 3 ∧ cfdDoq z = 1460) := by
  have h := cfdQ_facts z
  have hyq : cfdYq z = min (cfdDoq z / 365) 3 := rfl
  have hdoy : cfdDoy z = cfdDoq z - 365 * cfdYq z := rfl
  omega

/-- The year-of-era is below 400 and its century / quadrennium / year
digits are recovered by division. -/
theorem cfdYoe_facts (z : Nat) :
    cfdYoe z ≤ 399 ∧ cfdYoe z / 100 = cfdC z ∧
      cfdYoe z % 100 / 4 = cfdQ z ∧ cfdYoe z % 4 = cfdYq z := by
  have h1 := cfdC_facts z
  have h2 := cfdQ_facts z
  have h3 := cfdYq_facts z
  have hyoe : cfdYoe z = 100 * cfdC z + 4 * cfdQ z + cfdYq z := rfl
  omega

/-- Facts about the month decomposition of a day-of-year. -/
theorem cfdMp_facts (z : Nat) :
    (153 * cfdMp z + 2) / 5 ≤ cfdDoy z ∧ cfdMp z ≤ 11 := by
  have h := (cfdYq_facts z).2.2.1
  have hmp : cfdMp z = (5 * cfdDoy z + 2) / 153 := rfl
  omega

/-- Unfolding of `daysFromCivil` for a month from March to December. -/
theorem daysFromCivil_of_two_lt (y m d : Nat) (h : 2 < m) :
    daysFromCivil y m d =
      y / 400 * 146097 + y % 400 / 100 * 36524 + y % 400 % 100 / 4 * 1461 +
        y % 400 % 4 * 365 + ((153 * (m - 3) + 2) / 5 + d - 1) - 719468 := by
  simp only [daysFromCivil]
  rw [if_neg (by omega), if_pos h]

/-- Unfolding of `daysFromCivil` for January and February. -/
theorem daysFromCivil_of_le_two (y m d : Nat) (h : m ≤ 2) :
    daysFromCivil y m d =
      (y - 1) / 400 * 146097 + (y - 1) % 400 / 100 * 36524 + (y - 1) % 400 % 100 / 4 * 1461 +
        (y - 1) % 400 % 4 * 365 + ((153 * (m + 9) + 2) / 5 + d - 1) - 719468 := by
  simp only [daysFromCivil]
  rw [if_pos h, if_neg (by omega)]

/-- The civil-date conversion is a right inverse of the day-count
conversion: the Poller's parsed date always maps back to the day count the
Recorder started from. -/
theorem daysFromCivil_civilFromDays (z : Nat) :
    daysFromCivil (civilFromDays z).year (civilFromDays z).month (civilFromDays z).day = z := by
  have h1 := cfdC_facts z
  have h2 := cfdQ_facts z
  have h3 := cfdYq_facts z
  have h4 := cfdYoe_facts z
  have h5 := cfdMp_facts z
  have h6 : 146097 * cfdEra z + cfdDoe z = z + 719468 := by
    unfold cfdEra cfdDoe; omega
  have h7 : cfdDoc z = cfdDoe z - 36524 * cfdC z := rfl
  have h8 : cfdDoq z = cfdDoc z - 1461 * cfdQ z := rfl
  have h9 : cfdDoy z = cfdDoq z - 365 * cfdYq z := rfl
  have h10 : cfdDay z = cfdDoy z - (153 * cfdMp z + 2) / 5 + 1 := rfl
  have h11 : cfdYoe z = 100 * cfdC z + 4 * cfdQ z + cfdYq z := rfl
  have e1 : (cfdYoe z + cfdEra z * 400) / 400 = cfdEra z := by omega
  have e2 : (cfdYoe z + cfdEra z * 400) % 400 = cfdYoe z := by omega
  by_cases hmp : cfdMp z < 10
  · simp only [civilFromDays, if_pos hmp]
    rw [daysFromCivil_of_two_lt _ _ _ (by omega), Nat.add_sub_cancel, e1, e2]
    omega
  · simp only [civilFromDays, if_neg hmp]
    have hm9 : cfdMp z - 9 + 9 = cfdMp z := by omega
    rw [daysFromCivil_of_le_two _ _ _ (by omega), hm9, Nat.add_sub_cancel, e1, e2]
    omega

/-- Gregorian leap-year predicate (as implemented by Python `calendar` /
`datetime` date validation). -/
def IsLeapYear (y : Nat) : Prop := (y % 4 = 0 ∧ y % 100 ≠ 0) ∨ y % 400 = 0

instance (y : Nat) : Decidable (IsLeapYear y) :=
  inferInstanceAs (Decidable ((y % 4 = 0 ∧ y % 100 ≠ 0) ∨ y % 400 = 0))

/-- Number of days in a month (Python `datetime` date validation). -/
def daysInMonth (y m : Nat) : Nat :=
  if m = 2 then (if IsLeapYear y then 29 else 28)
  else if m = 4 ∨ m = 6 ∨ m = 9 ∨ m = 11 then 30
  else 31

/-- The civil date produced by `civilFromDays` is a valid calendar date:
month in 1..12 and day in 1..(length of that month in that year). -/
theorem civilFromDays_valid (z : Nat) :
    1 ≤ (civilFromDays z).month ∧ (civilFromDays z).month ≤ 12 ∧
      1 ≤ (civilFromDays z).day ∧
      (civilFromDays z).day ≤ daysInMonth (civilFromDays z).year (civilFromDays z).month := by
  obtain ⟨m, hgen⟩ : ∃ m, cfdMp z = m := ⟨_, rfl⟩
  have hm11 : m ≤ 11 := hgen ▸ (cfdMp_facts z).2
  simp only [civilFromDays, hgen]
  interval_cases m <;> norm_num <;>
  · have h1 := cfdC_facts z
    have h2 := cfdQ_facts z
    have h3 := cfdYq_facts z
    have h4 := cfdYoe_facts z
    have h5 := cfdMp_facts z
    have h8 : cfdDoq z = cfdDoc z - 1461 * cfdQ z := rfl
    have h9 : cfdDoy z = cfdDoq z - 365 * cfdYq z := rfl
    have h10 : cfdDay z = cfdDoy z - (153 * cfdMp z + 2) / 5 + 1 := rfl
    have h11 : cfdYoe z = 100 * cfdC z + 4 * cfdQ z + cfdYq z := rfl
    have h12 : cfdMp z = (5 * cfdDoy z + 2) / 153 := rfl
    rw [hgen] at h10 h12
    simp only [daysInMonth, IsLeapYear]
    split_ifs <;> omega

/-- Day counts up to 2932896 (9999-12-31) yield four-digit years. -/
theorem civilFromDays_year_le (z : Nat) (hz : z ≤ 2932896) :
    (civilFromDays z).year ≤ 9999 := by
  have h1 := cfdC_facts z
  have h2 := cfdQ_facts z
  have h3 := cfdYq_facts z
  have h4 := cfdYoe_facts z
  have h5 := cfdMp_facts z
  have h6 : 146097 * cfdEra z + cfdDoe z = z + 719468 := by
    unfold cfdEra cfdDoe; omega
  have h7 : cfdDoc z = cfdDoe z - 36524 * cfdC z := rfl
  have h8 : cfdDoq z = cfdDoc z - 1461 * cfdQ z := rfl
  have h9 : cfdDoy z = cfdDoq z - 365 * cfdYq z := rfl
  have h11 : cfdYoe z = 100 * cfdC z + 4 * cfdQ z + cfdYq z := rfl
  have h12 : cfdMp z = (5 * cfdDoy z + 2) / 153 := rfl
  by_cases hmp : cfdMp z < 10
  · simp only [civilFromDays, if_pos hmp]; omega
  · simp only [civilFromDays, if_neg hmp]; omega

/-! ## `datetime` values and second-resolution conversions -/

/-- A Python naive `datetime`, truncated to whole seconds. -/
structure DateTime where
  year : Nat
  month : Nat
  day : Nat
  hour : Nat
  minute : Nat
  second : Nat
  deriving DecidableEq, Repr

/-- `datetime.fromtimestamp` (fixed-offset clock, whole seconds). -/
def datetime_fromtimestamp (t : Nat) : DateTime :=
  { year := (civilFromDays (t / 86400)).year
    month := (civilFromDays (t / 86400)).month
    day := (civilFromDays (t / 86400)).day
    hour := t % 86400 / 3600
    minute := t % 3600 / 60
    second := t % 60 }

/-- `datetime.timestamp` (fixed-offset clock, whole seconds; defined for
datetimes on or after the epoch). -/
def DateTime.timestamp (dt : DateTime) : Nat :=
  daysFromCivil dt.year dt.month dt.day * 86400 + dt.hour * 3600 + dt.minute * 60 + dt.second

/-- `datetime.timestamp` inverts `datetime.fromtimestamp` at second
resolution. -/
theorem timestamp_fromtimestamp (t : Nat) :
    (datetime_fromtimestamp t).timestamp = t := by
  simp only [datetime_fromtimestamp, DateTime.timestamp, daysFromCivil_civilFromDays]
  omega

/-! ## Decimal formatting and parsing of timestamps

Models Python `strftime('%Y%m%d_%H%M%S')` (zero-padded decimal fields) and
the matching `strptime` read with its calendar validation. -/

/-- The decimal digit character for `n` (`0 ≤ n ≤ 9`). -/
def digitChar (n : Nat) : Char := Char.ofNat (48 + n)

/-- Numeric value of a decimal digit character. -/
def digitVal (c : Char) : Nat := c.toNat - 48

/-- Decimal digit characters, most significant first; `fuel` bounds the
recursion depth (any `fuel ≥ n` is enough, since `n / 10 < n`). -/
def natCharsAux : Nat → Nat → List Char
  | 0, n => [digitChar n]
  | fuel + 1, n =>
    if n < 10 then [digitChar n]
    else natCharsAux fuel (n / 10) ++ [digitChar (n % 10)]

/-- Decimal digit characters of `n`, most significant first. -/
def natChars (n : Nat) : List Char := natCharsAux n n

/-- The digit expansion does not depend on the fuel, given enough of it. -/
theorem natCharsAux_fuel (f1 : Nat) : ∀ f2 n, n ≤ f1 → n ≤ f2 →
    natCharsAux f1 n = natCharsAux f2 n := by
  induction f1 with
  | zero =>
    intro f2 n h1 _
    interval_cases n
    cases f2 <;> rfl
  | succ f1 ih =>
    intro f2 n h1 h2
    rcases Nat.lt_or_ge n 10 with hn | hn
    · cases f2 with
      | zero => interval_cases n; rfl
      | succ f2 => rw [natCharsAux, natCharsAux, if_pos hn, if_pos hn]
    · cases f2 with
      | zero => omega
      | succ f2 =>
        rw [natCharsAux, natCharsAux, if_neg (by omega), if_neg (by omega),
          ih f2 (n / 10) (by omega) (by omega)]

/-- Unfolding of `natChars` for multi-digit numbers. -/
theorem natChars_step (n : Nat) (h : 10 ≤ n) :
    natChars n = natChars (n / 10) ++ [digitChar (n % 10)] := by
  obtain ⟨m, rfl⟩ : ∃ m, n = m + 1 := ⟨n - 1, by omega⟩
  rw [natChars, natCharsAux, if_neg (by omega), natChars,
    natCharsAux_fuel m ((m + 1) / 10) ((m + 1) / 10) (by omega) (by omega)]

/-- Left-pad a character list to width `w` with `'0'` (printf `%0wd`). -/
def padLeft (w : Nat) (l : List Char) : List Char :=
  List.replicate (w - l.length) '0' ++ l

/-- `"%02d" % n`. -/
def pad2 (n : Nat) : List Char := padLeft 2 (natChars n)

/-- `"%04d" % n`. -/
def pad4 (n : Nat) : List Char := padLeft 4 (natChars n)

theorem natChars_of_lt_ten (n : Nat) (h : n < 10) : natChars n = [digitChar n] := by
  cases n with
  | zero => rfl
  | succ m => rw [natChars, natCharsAux, if_pos h]

theorem natChars_of_ten_le (n : Nat) (h1 : 10 ≤ n) (h2 : n < 100) :
    natChars n = [digitChar (n / 10), digitChar (n % 10)] := by
  rw [natChars_step n h1, natChars_of_lt_ten _ (by omega)]
  rfl

theorem natChars_of_hundred_le (n : Nat) (h1 : 100 ≤ n) (h2 : n < 1000) :
    natChars n = [digitChar (n / 100), digitChar (n / 10 % 10), digitChar (n % 10)] := by
  rw [natChars_step n (by omega), natChars_of_ten_le (n / 10) (by omega) (by omega)]
  have e : n / 10 / 10 = n / 100 := by omega
  rw [e]
  rfl

theorem natChars_of_thousand_le (n : Nat) (h1 : 1000 ≤ n) (h2 : n < 10000) :
    natChars n =
      [digitChar (n / 1000), digitChar (n / 100 % 10), digitChar (n / 10 % 10),
        digitChar (n % 10)] := by
  rw [natChars_step n (by omega), natChars_of_hundred_le (n / 10) (by omega) (by omega)]
  have e1 : n / 10 / 100 = n / 1000 := by omega
  have e2 : n / 10 / 10 % 10 = n / 100 % 10 := by omega
  rw [e1, e2]
  rfl

theorem pad2_eq (n : Nat) (h : n < 100) :
    pad2 n = [digitChar (n / 10), digitChar (n % 10)] := by
  rcases Nat.lt_or_ge n 10 with h1 | h1
  · have e1 : n / 10 = 0 := by omega
    have e2 : n % 10 = n := by omega
    rw [pad2, padLeft, natChars_of_lt_ten n h1, e1, e2]
    rfl
  · rw [pad2, padLeft, natChars_of_ten_le n h1 h]
    rfl

theorem pad4_eq (n : Nat) (h : n < 10000) :
    pad4 n =
      [digitChar (n / 1000), digitChar (n / 100 % 10), digitChar (n / 10 % 10),
        digitChar (n % 10)] := by
  rcases Nat.lt_or_ge n 10 with h1 | h1
  · have e1 : n / 1000 = 0 := by omega
    have e2 : n / 100 % 10 = 0 := by omega
    have e3 : n / 10 % 10 = 0 := by omega
    have e4 : n % 10 = n := by omega
    rw [pad4, padLeft, natChars_of_lt_ten n h1, e1, e2, e3, e4]
    rfl
  rcases Nat.lt_or_ge n 100 with h2 | h2
  · have e1 : n / 1000 = 0 := by omega
    have e2 : n / 100 % 10 = 0 := by omega
    have e3 : n / 10 % 10 = n / 10 := by omega
    rw [pad4, padLeft, natChars_of_ten_le n h1 h2, e1, e2, e3]
    rfl
  rcases Nat.lt_or_ge n 1000 with h3 | h3
  · have e1 : n / 1000 = 0 := by omega
    have e2 : n / 100 % 10 = n / 100 := by omega
    rw [pad4, padLeft, natChars_of_hundred_le n h2 h3, e1, e2]
    rfl
  · rw [pad4, padLeft, natChars_of_thousand_le n h3 h]
    rfl

theorem digitChar_isDigit (n : Nat) (h : n < 10) : (digitChar n).isDigit = true := by
  interval_cases n <;> decide

theorem digitVal_digitChar (n : Nat) (h : n < 10) : digitVal (digitChar n) = n := by
  interval_cases n <;> decide

theorem digitChar_ne_dot (n : Nat) (h : n < 10) : digitChar n ≠ '.' := by
  interval_cases n <;> decide

/-! ## Recorder filename generation and Poller filename parsing -/

/-- `dt.strftime('%Y%m%d_%H%M%S.wav')` as a character list: the name the
Recorder gives a flushed `RecordingFile`
(`src/modules/audio_recording.py`). -/
def strftime_wav_chars (dt : DateTime) : List Char :=
  pad4 dt.year ++ pad2 dt.month ++ pad2 dt.day ++ ['_'] ++
    pad2 dt.hour ++ pad2 dt.minute ++ pad2 dt.second ++ ['.', 'w', 'a', 'v']

/-- The Recorder's filename for a flush starting at capture time `t`:
`datetime.fromtimestamp(t).strftime('%Y%m%d_%H%M%S.wav')`. -/
def recording_filename (t : Nat) : String :=
  ⟨strftime_wav_chars (datetime_fromtimestamp t)⟩

/-- Python `str.replace(".wav", "")`: remove every (non-overlapping,
left-to-right) occurrence of `".wav"`; `fuel` bounds the scan length (any
`fuel ≥ length` is enough, since every step consumes at least one
character). -/
def stripWavAux : Nat → List Char → List Char
  | _, [] => []
  | 0, l => l
  | fuel + 1, c :: rest =>
    if (c :: rest).take 4 = ['.', 'w', 'a', 'v'] then stripWavAux fuel (rest.drop 3)
    else c :: stripWavAux fuel rest

/-- Python `basename.replace(".wav", "")` on a character list. -/
def stripWav (s : List Char) : List Char := stripWavAux s.length s

/-- `datetime.strptime(s, '%Y%m%d_%H%M%S')`, read fixed-width (4-2-2 `_`
2-2-2 digits), with Python's calendar-range validation. Returns `none`
where Python raises `ValueError`. -/
def strptime_YmdHMS (s : String) : Option DateTime :=
  match s.data with
  | [y3, y2, y1, y0, b1, b0, d1, d0, sep, h1, h0, n1, n0, s1, s0] =>
    if y3.isDigit ∧ y2.isDigit ∧ y1.isDigit ∧ y0.isDigit ∧ b1.isDigit ∧ b0.isDigit ∧
        d1.isDigit ∧ d0.isDigit ∧ sep = '_' ∧ h1.isDigit ∧ h0.isDigit ∧ n1.isDigit ∧
        n0.isDigit ∧ s1.isDigit ∧ s0.isDigit then
      let y := 1000 * digitVal y3 + 100 * digitVal y2 + 10 * digitVal y1 + digitVal y0
      let mo := 10 * digitVal b1 + digitVal b0
      let d := 10 * digitVal d1 + digitVal d0
      let h := 10 * digitVal h1 + digitVal h0
      let mi := 10 * digitVal n1 + digitVal n0
      let se := 10 * digitVal s1 + digitVal s0
      if 1 ≤ mo ∧ mo ≤ 12 ∧ 1 ≤ d ∧ d ≤ daysInMonth y mo ∧ h ≤ 23 ∧ mi ≤ 59 ∧ se ≤ 59 then
        some ⟨y, mo, d, h, mi, se⟩
      else none
    else none
  | _ => none

/-- The Poller's timestamp recovery for a discovered basename
(`process_wav_file`): `datetime.strptime(basename.replace(".wav", ""),
'%Y%m%d_%H%M%S').timestamp()`, or `none` where the Python code raises and
falls back to the wall clock. -/
def parse_wav_timestamp (basename : String) : Option Nat :=
  (strptime_YmdHMS ⟨stripWav basename.data⟩).map DateTime.timestamp

/-- `stripWav` removes a final `".wav"` after dot-free text. -/
theorem stripWav_append_wav (l : List Char) (h : ∀ c ∈ l, c ≠ '.') :
    stripWav (l ++ ['.', 'w', 'a', 'v']) = l := by
  induction l with
  | nil => decide
  | cons c l ih =>
    have hcond : ¬((c :: (l ++ ['.', 'w', 'a', 'v'])).take 4 = ['.', 'w', 'a', 'v']) := by
      intro heq
      rw [List.take_succ_cons] at heq
      exact h c (List.mem_cons_self _ _) (List.cons_eq_cons.mp heq).1
    show stripWavAux ((l ++ ['.', 'w', 'a', 'v']).length + 1) (c :: (l ++ ['.', 'w', 'a', 'v']))
      = c :: l
    rw [stripWavAux, if_neg hcond]
    exact congrArg (c :: ·) (ih fun x hx => h x (List.mem_cons_of_mem _ hx))

theorem digit4_val (n : Nat) (h : n < 10000) :
    1000 * digitVal (digitChar (n / 1000)) + 100 * digitVal (digitChar (n / 100 % 10)) +
      10 * digitVal (digitChar (n / 10 % 10)) + digitVal (digitChar (n % 10)) = n := by
  rw [digitVal_digitChar _ (by omega), digitVal_digitChar _ (by omega),
    digitVal_digitChar _ (by omega), digitVal_digitChar _ (by omega)]
  omega

theorem digit2_val (n : Nat) (h : n < 100) :
    10 * digitVal (digitChar (n / 10)) + digitVal (digitChar (n % 10)) = n := by
  rw [digitVal_digitChar _ (by omega), digitVal_digitChar _ (by omega)]
  omega

/-- Round-trip: the Poller's `strptime`-based parse of a Recorder-produced
filename recovers the flush's whole-second capture timestamp (for
timestamps up to 9999-12-31, the last the 4-digit year field covers). -/
theorem parse_recording_filename (t : Nat) (h : t ≤ 253402300799) :
    parse_wav_timestamp (recording_filename t) = some t := by
  have hz : t / 86400 ≤ 2932896 := by omega
  have hyear : (civilFromDays (t / 86400)).year ≤ 9999 := civilFromDays_year_le _ hz
  have hvalid := civilFromDays_valid (t / 86400)
  have hdim : daysInMonth (civilFromDays (t / 86400)).year (civilFromDays (t / 86400)).month ≤ 31 := by
    unfold daysInMonth
    split_ifs <;> omega
  have hsplit : strftime_wav_chars (datetime_fromtimestamp t) =
      [digitChar ((civilFromDays (t / 86400)).year / 1000),
        digitChar ((civilFromDays (t / 86400)).year / 100 % 10),
        digitChar ((civilFromDays (t / 86400)).year / 10 % 10),
        digitChar ((civilFromDays (t / 86400)).year % 10),
        digitChar ((civilFromDays (t / 86400)).month / 10),
        digitChar ((civilFromDays (t / 86400)).month % 10),
        digitChar ((civilFromDays (t / 86400)).day / 10),
        digitChar ((civilFromDays (t / 86400)).day % 10), '_',
        digitChar (t % 86400 / 3600 / 10), digitChar (t % 86400 / 3600 % 10),
        digitChar (t % 3600 / 60 / 10), digitChar (t % 3600 / 60 % 10),
        digitChar (t % 60 / 10), digitChar (t % 60 % 10)] ++ ['.', 'w', 'a', 'v'] := by
    simp only [strftime_wav_chars, datetime_fromtimestamp]
    rw [pad4_eq _ (by omega), pad2_eq _ (by omega), pad2_eq _ (by omega), pad2_eq _ (by omega),
      pad2_eq _ (by omega), pad2_eq _ (by omega)]
    rfl
  simp only [parse_wav_timestamp, recording_filename]
  rw [hsplit]
  rw [stripWav_append_wav _ ?mem]
  case mem =>
    intro c hc
    simp only [List.mem_cons, List.not_mem_nil, or_false] at hc
    rcases hc with rfl | rfl | rfl | rfl | rfl | rfl | rfl | rfl | rfl | rfl | rfl | rfl |
      rfl | rfl | rfl <;>
      first
        | decide
        | exact digitChar_ne_dot _ (by omega)
  simp only [strptime_YmdHMS]
  rw [if_pos ?digits]
  case digits =>
    refine ⟨digitChar_isDigit _ (by omega), digitChar_isDigit _ (by omega),
      digitChar_isDigit _ (by omega), digitChar_isDigit _ (by omega),
      digitChar_isDigit _ (by omega), digitChar_isDigit _ (by omega),
      digitChar_isDigit _ (by omega), digitChar_isDigit _ (by omega), trivial,
      digitChar_isDigit _ (by omega), digitChar_isDigit _ (by omega),
      digitChar_isDigit _ (by omega), digitChar_isDigit _ (by omega),
      digitChar_isDigit _ (by omega), digitChar_isDigit _ (by omega)⟩
  rw [digit4_val _ (by omega), digit2_val _ (by omega), digit2_val _ (by omega),
    digit2_val _ (by omega), digit2_val _ (by omega), digit2_val _ (by omega)]
  rw [if_pos ⟨hvalid.1, hvalid.2.1, hvalid.2.2.1, hvalid.2.2.2, by omega, by omega, by omega⟩]
  show some ((datetime_fromtimestamp t).timestamp) = some t
  rw [timestamp_fromtimestamp]

/-! ## Classifier Poller: ledger update and file lifecycle

Model of `update_ledger` / `process_wav_file` from
`src/modules/birdnet_analyzer.py` (the `src/birdnet_analyzer.py` variant
has the same behaviour: it writes the row and only afterwards breaks on a
non-empty scientific name).

Latitude, longitude and confidence are copied verbatim from config /
classifier output into the CSV, so they are modelled as plain strings. -/

/-- One classifier detection, as the dicts returned by birdnetlib. -/
structure Detection where
  common_name : String
  scientific_name : String
  confidence : String
  deriving DecidableEq, Repr

/-- The configuration fields `update_ledger` reads. -/
structure Config where
  LAT : String
  LON : String
  CHUNK_DURATION : Nat
  BUFFER_SIZE : Nat
  deriving DecidableEq, Repr

/-- One data row of the ledger CSV. -/
structure LedgerRow where
  date : String
  start_Time : String
  end_Time : String
  lat : String
  lon : String
  label : String
  scientific_name : String
  confidence : String
  deriving DecidableEq, Repr

/-- One physical CSV record: the header line or a data row. -/
inductive CsvRecord where
  | header : CsvRecord
  | data : LedgerRow → CsvRecord
  deriving DecidableEq, Repr

/-- Whether a CSV record is a data row. -/
def CsvRecord.isData : CsvRecord → Bool
  | .header => false
  | .data _ => true

/-- `dt.strftime('%H:%M:%S')`. -/
def strftime_HMS (dt : DateTime) : String :=
  ⟨pad2 dt.hour ++ [':'] ++ pad2 dt.minute ++ [':'] ++ pad2 dt.second⟩

/-- `dt.strftime('%Y-%m-%d')`. -/
def strftime_Ymd (dt : DateTime) : String :=
  ⟨pad4 dt.year ++ ['-'] ++ pad2 dt.month ++ ['-'] ++ pad2 dt.day⟩

/-- The row `update_ledger` writes for one detection. -/
def mkRow (dateStr startStr endStr : String) (cfg : Config) (det : Detection) : LedgerRow :=
  { date := dateStr
    start_Time := startStr
    end_Time := endStr
    lat := cfg.LAT
    lon := cfg.LON
    label := det.common_name
    scientific_name := det.scientific_name
    confidence := det.confidence }

/-- `update_ledger`'s detection loop: write a row for each detection and
stop after the first one whose scientific name is non-empty (the `break`
sits after the `writer.writerow` call). -/
def detectionRows (dateStr startStr endStr : String) (cfg : Config) :
    List Detection → List LedgerRow
  | [] => []
  | det :: rest =>
    mkRow dateStr startStr endStr cfg det ::
      (if det.scientific_name ≠ "" then []
       else detectionRows dateStr startStr endStr cfg rest)

/-- `update_ledger`'s `date_str`: `datetime.fromtimestamp(timestamp).strftime('%Y-%m-%d')`. -/
def ledger_date_str (timestamp : Nat) : String :=
  strftime_Ymd (datetime_fromtimestamp timestamp)

/-- `update_ledger`'s `start_time_str`: `dt.strftime('%H:%M:%S')`. -/
def ledger_start_str (timestamp : Nat) : String :=
  strftime_HMS (datetime_fromtimestamp timestamp)

/-- `update_ledger`'s `end_time_str`:
`(dt + timedelta(seconds=CHUNK_DURATION * BUFFER_SIZE)).strftime('%H:%M:%S')`
(on the fixed-offset clock, adding a timedelta equals converting the
shifted timestamp). -/
def ledger_end_str (timestamp : Nat) (cfg : Config) : String :=
  strftime_HMS (datetime_fromtimestamp (timestamp + cfg.CHUNK_DURATION * cfg.BUFFER_SIZE))

/-- The row `update_ledger` writes at `timestamp` for one detection. -/
def ledgerRowFor (timestamp : Nat) (cfg : Config) (det : Detection) : LedgerRow :=
  mkRow (ledger_date_str timestamp) (ledger_start_str timestamp)
    (ledger_end_str timestamp cfg) cfg det

/-- `update_ledger detections timestamp cfg file`: the ledger file content
after the call, where `file` is the content before (`none` = the file does
not exist). Opening with mode `'a'` creates the file; the header is
written exactly when `os.path.isfile` was false; then the detection loop
appends its rows. -/
def update_ledger (detections : List Detection) (timestamp : Nat) (cfg : Config)
    (file : Option (List CsvRecord)) : List CsvRecord :=
  let file_exists := file.isSome
  file.getD [] ++ (if file_exists then [] else [CsvRecord.header]) ++
    (detectionRows (ledger_date_str timestamp) (ledger_start_str timestamp)
      (ledger_end_str timestamp cfg) cfg detections).map CsvRecord.data

/-- The ledger file after a sequence of `update_ledger` calls (detections
and timestamp per processed file), starting with no ledger file on disk. -/
def ledgerFileAfter (cfg : Config) (calls : List (List Detection × Nat)) :
    Option (List CsvRecord) :=
  calls.foldl (fun file c => some (update_ledger c.1 c.2 cfg file)) none

/-- Python truthiness of `detection.get('scientific_name', '')`. -/
def hasName (det : Detection) : Bool := det.scientific_name ≠ ""

/-- The detection loop writes exactly the detections up to and including
the first one with a non-empty scientific name (all of them when none
qualifies, since `List.findIdx` is then the length). -/
theorem detectionRows_eq_take (dateStr startStr endStr : String) (cfg : Config)
    (dets : List Detection) :
    detectionRows dateStr startStr endStr cfg dets =
      (dets.take (dets.findIdx hasName + 1)).map (mkRow dateStr startStr endStr cfg) := by
  induction dets with
  | nil => rfl
  | cons det rest ih =>
    by_cases hd : det.scientific_name = ""
    · rw [detectionRows, if_neg (by simp [hd]), ih, List.findIdx_cons]
      have : hasName det = false := by simp [hasName, hd]
      rw [this]
      rfl
    · rw [detectionRows, if_pos hd, List.findIdx_cons]
      have : hasName det = true := by simp [hasName, hd]
      rw [this]
      rfl

/-- The state a Poller acts on: the recordings directory (list of file
paths) and the ledger file (`none` = not yet created). -/
structure PollerState where
  files : List String
  ledger : Option (List CsvRecord)
  deriving DecidableEq, Repr

/-- Python `os.path.basename`: the part after the last `'/'`. -/
def os_path_basename (s : String) : String :=
  ⟨(s.data.reverse.takeWhile (fun c => c ≠ '/')).reverse⟩

/-- `process_wav_file wav_file` (`src/modules/birdnet_analyzer.py`):
derive a timestamp from the basename (falling back to the wall clock
`now` when parsing raises), run the classifier, update the ledger, and
delete the source file. The classifier is the external
collaborator `classify`. -/
def process_wav_file (classify : String → List Detection) (now : Nat) (cfg : Config)
    (st : PollerState) (wav_file : String) : PollerState :=
  let basename := os_path_basename wav_file
  let timestamp :=
    match parse_wav_timestamp basename with
    | some ts => ts
    | none => now
  let detections := classify wav_file
  let ledger := update_ledger detections timestamp cfg st.ledger
  { files := st.files.erase wav_file, ledger := some ledger }

/-! ## Recorder: rolling buffer and flush
(`main` loop of `src/modules/audio_recording.py`; the mac variant's loop
is identical). Audio chunk payloads are abstract (`α`); a flush's payload is
the buffered chunk list (whose concatenation `np.concatenate` writes). -/

/-- The Recorder's loop state: the rolling chunk buffer and the parallel
capture-timestamp list (`audio_buffer` / `timestamps`). -/
structure RecorderState (α : Type) where
  audio_buffer : List α
  timestamps : List Nat
  deriving DecidableEq, Repr

/-- One iteration of the Recorder's main loop after capturing `chunk` at
whole-second time `t`: append to both lists, `pop(0)` from both when the
buffer exceeds `BUFFER_SIZE`, then flush a `RecordingFile` (named with
`strftime` from `timestamps[0]`, content the buffered chunks) exactly when
the buffer length equals `BUFFER_SIZE`. (With `BUFFER_SIZE = 0` the Python
code would raise `IndexError` on `timestamps[0]`; the model yields no
flush there, and the theorems assume `1 ≤ BUFFER_SIZE`.) -/
def recordStep {α : Type} (B : Nat) (st : RecorderState α) (chunk : α) (t : Nat) :
    RecorderState α × Option (String × List α) :=
  let buf1 := st.audio_buffer ++ [chunk]
  let ts1 := st.timestamps ++ [t]
  let buf2 := if buf1.length > B then buf1.tail else buf1
  let ts2 := if buf1.length > B then ts1.tail else ts1
  let out :=
    if buf2.length = B then ts2.head?.map (fun t0 => (recording_filename t0, buf2))
    else none
  (⟨buf2, ts2⟩, out)

/-- The Recorder state after processing `inputs` (chunk, capture time)
pairs from a fresh start. -/
def recordRun {α : Type} (B : Nat) (inputs : List (α × Nat)) : RecorderState α :=
  inputs.foldl (fun st p => (recordStep B st p.1 p.2).1) ⟨[], []⟩

/-- Sliding one element into the length-capped suffix of `A` gives the
length-capped suffix of `A ++ [y]`. -/
theorem slide_drop {β : Type} (A : List β) (y : β) (B : Nat) (h : B ≤ A.length) :
    (A.drop (A.length - B) ++ [y]).tail = (A ++ [y]).drop (A.length + 1 - B) := by
  rcases Nat.eq_zero_or_pos B with hB | hB
  · subst hB
    rw [Nat.sub_zero, List.drop_length, List.nil_append, List.tail_cons,
      List.drop_eq_nil_of_le (by simp)]
  · rw [← List.drop_one, List.drop_append_of_le_length (by rw [List.length_drop]; omega),
      List.drop_drop, List.drop_append_of_le_length (by omega)]
    have e : A.length - B + 1 = A.length + 1 - B := by omega
    rw [e]

/-- After `N` appends the buffer holds exactly the last `min N B` chunks
(and capture times), in append order: both lists are the `drop (N - B)`
suffix of everything appended. -/
theorem recordRun_eq_drop {α : Type} (B : Nat) (inputs : List (α × Nat)) :
    (recordRun B inputs).audio_buffer = (inputs.map Prod.fst).drop (inputs.length - B) ∧
      (recordRun B inputs).timestamps = (inputs.map Prod.snd).drop (inputs.length - B) := by
  induction inputs using List.reverseRecOn with
  | nil => constructor <;> simp [recordRun]
  | append_singleton inputs x ih =>
    have hstep : recordRun B (inputs ++ [x]) =
        (recordStep B (recordRun B inputs) x.1 x.2).1 := by
      simp [recordRun, List.foldl_append]
    have hblen : (recordRun B inputs).audio_buffer.length =
        inputs.length - (inputs.length - B) := by
      rw [ih.1, List.length_drop, List.length_map]
    rw [hstep]
    simp only [recordStep]
    rw [List.length_append, hblen]
    by_cases hover : inputs.length - (inputs.length - B) + [x.1].length > B
    · have hBN : B ≤ inputs.length := by
        simp only [List.length_cons, List.length_nil] at hover; omega
      rw [if_pos hover, if_pos hover]
      refine ⟨?_, ?_⟩
      · have hA : (List.map Prod.fst inputs).length = inputs.length := by
          rw [List.length_map]
        have hs := slide_drop (List.map Prod.fst inputs) x.1 B (by rw [hA]; exact hBN)
        rw [hA] at hs
        have eidx : (inputs ++ [x]).length - B = inputs.length + 1 - B := by simp
        rw [ih.1, hs, eidx]
        simp
      · have hA : (List.map Prod.snd inputs).length = inputs.length := by
          rw [List.length_map]
        have hs := slide_drop (List.map Prod.snd inputs) x.2 B (by rw [hA]; exact hBN)
        rw [hA] at hs
        have eidx : (inputs ++ [x]).length - B = inputs.length + 1 - B := by simp
        rw [ih.2, hs, eidx]
        simp
    · have hBN : inputs.length + 1 ≤ B := by
        simp only [List.length_cons, List.length_nil] at hover; omega
      rw [if_neg hover, if_neg hover]
      have e0 : inputs.length - B = 0 := by omega
      have e1 : (inputs ++ [x]).length - B = 0 := by
        simp only [List.length_append, List.length_cons, List.length_nil]; omega
      refine ⟨?_, ?_⟩
      · rw [ih.1, e0, e1, List.drop_zero, List.drop_zero, List.map_append]
        rfl
      · rw [ih.2, e0, e1, List.drop_zero, List.drop_zero, List.map_append]
        rfl

/-! ## Image Fetcher: change-only polling of the ledger
(`monitor_ledger` of `src/modules/birdnet_image_demo.py`). A poll
observes the ledger's data rows; a fetch
(`fetch_and_save_bird_image`) is recorded by the name it targets. -/

/-- One poll: read all rows; if any, take the last row's
`scientific_name`; when it is non-empty (Python truthiness) and differs
from `last_processed_scientific_name` (initially `None`), fetch and
remember it. Returns the new remembered name and the fetch issued. -/
def pollStep (last : Option String) (rows : List LedgerRow) : Option String × Option String :=
  match rows.getLast? with
  | none => (last, none)
  | some row =>
    if row.scientific_name ≠ "" ∧ some row.scientific_name ≠ last then
      (some row.scientific_name, some row.scientific_name)
    else (last, none)

/-- Fold step of the monitoring loop, accumulating fetched names. -/
def monitorStepAcc (acc : Option String × List String) (rows : List LedgerRow) :
    Option String × List String :=
  let s := pollStep acc.1 rows
  (s.1, acc.2 ++ s.2.toList)

/-- `monitor_ledger` over a sequence of observed ledger snapshots: the
final remembered name and the list of fetched names, in fetch order. -/
def monitorRun (polls : List (List LedgerRow)) : Option String × List String :=
  polls.foldl monitorStepAcc (none, [])

/-- The remembered name always equals the most recent fetch performed. -/
theorem monitorRun_last_eq_fetch (polls : List (List LedgerRow)) :
    ∀ acc : Option String × List String, acc.1 = acc.2.getLast? →
      (polls.foldl monitorStepAcc acc).1 = (polls.foldl monitorStepAcc acc).2.getLast? := by
  induction polls with
  | nil => exact fun acc h => h
  | cons rows rest ih =>
    intro acc h
    rw [List.foldl_cons]
    apply ih
    simp only [monitorStepAcc, pollStep]
    cases hr : rows.getLast? with
    | none => simpa using h
    | some row =>
      dsimp only
      split_ifs with hcond
      · simp [Option.toList, List.getLast?_concat]
      · simpa using h

/-! ## Supporting lemmas for the claim theorems -/

/-- When no detection has a non-empty scientific name the loop's `break`
never fires and every detection gets a row. -/
theorem detectionRows_of_all_empty (ds ss es : String) (cfg : Config) (dets : List Detection)
    (h : ∀ det ∈ dets, det.scientific_name = "") :
    detectionRows ds ss es cfg dets = dets.map (mkRow ds ss es cfg) := by
  induction dets with
  | nil => rfl
  | cons det rest ih =>
    rw [detectionRows, if_neg (by simp [h det (List.mem_cons_self _ _)]),
      ih (fun d hd => h d (List.mem_cons_of_mem _ hd)), List.map_cons]

theorem foldl_min_of_le (a : Nat) (l : List Nat) (ha : ∀ b ∈ l, a ≤ b) :
    l.foldl min a = a := by
  induction l generalizing a with
  | nil => rfl
  | cons b l ih =>
    rw [List.foldl_cons]
    have hab : min a b = a := by
      have := ha b (List.mem_cons_self _ _); omega
    rw [hab]
    exact ih a fun c hc => ha c (List.mem_cons_of_mem _ hc)

/-- In a chronologically sorted timestamp list the head is the minimum. -/
theorem sorted_min_eq_head (l : List Nat) (h : List.Sorted (· ≤ ·) l) :
    l.min? = l.head? := by
  cases l with
  | nil => rfl
  | cons a l =>
    rw [List.min?_cons', List.head?_cons, foldl_min_of_le a l (List.sorted_cons.mp h).1]

/-- Each `update_ledger` call appends a header record exactly when the
ledger file did not exist at the moment of the call. -/
theorem update_ledger_header_count (dets : List Detection) (t : Nat) (cfg : Config)
    (file : Option (List CsvRecord)) :
    (update_ledger dets t cfg file).countP (fun r => !r.isData) =
      (file.getD []).countP (fun r => !r.isData) + (if file.isSome then 0 else 1) := by
  have hmap : ∀ rows : List LedgerRow,
      (rows.map CsvRecord.data).countP (fun r => !r.isData) = 0 := by
    intro rows
    rw [List.countP_map]
    exact List.countP_eq_zero.mpr (by intro a _; simp [Function.comp, CsvRecord.isData])
  cases file with
  | none => simp [update_ledger, List.countP_append, List.countP_cons, hmap, CsvRecord.isData]
  | some l => simp [update_ledger, List.countP_append, hmap]

theorem update_ledger_head_none (dets : List Detection) (t : Nat) (cfg : Config) :
    (update_ledger dets t cfg none).head? = some CsvRecord.header := by
  simp [update_ledger]

theorem update_ledger_head_some (dets : List Detection) (t : Nat) (cfg : Config)
    (l : List CsvRecord) (h : l ≠ []) :
    (update_ledger dets t cfg (some l)).head? = l.head? := by
  cases l with
  | nil => exact absurd rfl h
  | cons a l => simp [update_ledger]

/-- A call with zero detections appends no data rows. -/
theorem update_ledger_nil_filter (t : Nat) (cfg : Config) (file : Option (List CsvRecord)) :
    (update_ledger [] t cfg file).filter CsvRecord.isData =
      (file.getD []).filter CsvRecord.isData := by
  cases file <;> simp [update_ledger, detectionRows, List.filter_append, CsvRecord.isData]

/-- Once the ledger file exists with exactly one header at its head,
every further `update_ledger` call preserves that. -/
theorem ledgerFileAfter_aux (cfg : Config) (calls : List (List Detection × Nat)) :
    ∀ l : List CsvRecord, l.countP (fun r => !r.isData) = 1 → l.head? = some CsvRecord.header →
      (((calls.foldl (fun file c => some (update_ledger c.1 c.2 cfg file)) (some l)).getD
            []).countP (fun r => !r.isData) = 1 ∧
        ((calls.foldl (fun file c => some (update_ledger c.1 c.2 cfg file)) (some l)).getD
            []).head? = some CsvRecord.header) := by
  induction calls with
  | nil => exact fun l h1 h2 => ⟨h1, h2⟩
  | cons c rest ih =>
    intro l h1 h2
    rw [List.foldl_cons]
    apply ih
    · rw [update_ledger_header_count]
      simpa using h1
    · have hl : l ≠ [] := by
        intro he
        rw [he] at h2
        simp at h2
      rw [update_ledger_head_some _ _ _ _ hl, h2]

/-! ## Claim theorems -/

/-- C1 counterexample: for the classifier output
`[{sci:"", conf:0.1}, {sci:"Turdus migratorius", conf:0.8}]` — which does
contain a detection with a non-empty scientific name — `update_ledger`
appends two data rows, not exactly one: the row-write precedes the `break`
check, so the leading empty-name detection also gets a row. -/
theorem C1_counterexample :
    (update_ledger [⟨"", "", "0.1"⟩, ⟨"American Robin", "Turdus migratorius", "0.8"⟩] 0
          ⟨"44.9778", "-93.265", 10, 3⟩ none).countP CsvRecord.isData = 2 ∧
      ([⟨"", "", "0.1"⟩, (⟨"American Robin", "Turdus migratorius", "0.8"⟩ : Detection)].any
          hasName) = true := by
  decide

/-- C1 (amended): when the classifier output contains a detection with a
non-empty scientific name, `update_ledger` appends one row per detection
up to and including the first such detection — `findIdx hasName + 1` rows,
the last of which records that first non-empty-named detection — and
appends exactly one row when the first detection already qualifies. -/
theorem C1_rows_until_first_valid (dets : List Detection) (t : Nat) (cfg : Config)
    (file : Option (List CsvRecord)) (h : dets.findIdx hasName < dets.length) :
    update_ledger dets t cfg file =
        file.getD [] ++ (if file.isSome then [] else [CsvRecord.header]) ++
          (dets.take (dets.findIdx hasName + 1)).map
            (fun det => CsvRecord.data (ledgerRowFor t cfg det)) ∧
      ((dets.take (dets.findIdx hasName + 1)).map
          (fun det => CsvRecord.data (ledgerRowFor t cfg det))).length =
        dets.findIdx hasName + 1 ∧
      ((dets.take (dets.findIdx hasName + 1)).map
          (fun det => CsvRecord.data (ledgerRowFor t cfg det))).getLast? =
        (dets[dets.findIdx hasName]?).map
          (fun det => CsvRecord.data (ledgerRowFor t cfg det)) := by
  refine ⟨?_, ?_, ?_⟩
  · rw [update_ledger, detectionRows_eq_take, List.map_map]
    rfl
  · rw [List.length_map, List.length_take]
    omega
  · rw [List.getLast?_eq_getElem?, List.length_map, List.length_take]
    have e : min (dets.findIdx hasName + 1) dets.length - 1 = dets.findIdx hasName := by omega
    rw [e, List.getElem?_map, List.getElem?_take, if_pos (by omega)]

/-- C1 witness: at the counterexample input the amended claim holds — two
rows are appended, the file with no prior ledger gains the header and the
rows of the detections up to the first non-empty-named one. -/
theorem C1_witness :
    update_ledger [⟨"", "", "0.1"⟩, ⟨"American Robin", "Turdus migratorius", "0.8"⟩] 0
        ⟨"44.9778", "-93.265", 10, 3⟩ none =
      [CsvRecord.header] ++
        ([⟨"", "", "0.1"⟩,
            (⟨"American Robin", "Turdus migratorius", "0.8"⟩ : Detection)].take
            ([⟨"", "", "0.1"⟩,
                (⟨"American Robin", "Turdus migratorius", "0.8"⟩ : Detection)].findIdx hasName
              + 1)).map
          (fun det =>
            CsvRecord.data (ledgerRowFor 0 ⟨"44.9778", "-93.265", 10, 3⟩ det)) :=
  (C1_rows_until_first_valid _ _ _ _ (by decide)).1

/-- C2: when the classifier output is non-empty but no detection has a
non-empty scientific name, `update_ledger` writes one row per returned
detection, in returned order, with no early exit from the loop. -/
theorem C2_all_rows_when_no_valid_name (dets : List Detection) (t : Nat) (cfg : Config)
    (file : Option (List CsvRecord)) (h : ∀ det ∈ dets, det.scientific_name = "") :
    update_ledger dets t cfg file =
      file.getD [] ++ (if file.isSome then [] else [CsvRecord.header]) ++
        dets.map (fun det => CsvRecord.data (ledgerRowFor t cfg det)) := by
  rw [update_ledger, detectionRows_of_all_empty _ _ _ _ _ h, List.map_map]
  rfl

/-- C2 witness: the spec's example `[{sci:"", conf:0.5}, {sci:"", conf:0.3}]`
writes both rows. -/
theorem C2_witness :
    update_ledger [⟨"", "", "0.5"⟩, ⟨"", "", "0.3"⟩] 0 ⟨"44.9778", "-93.265", 10, 3⟩ none =
      [CsvRecord.header] ++
        [⟨"", "", "0.5"⟩, (⟨"", "", "0.3"⟩ : Detection)].map
          (fun det =>
            CsvRecord.data (ledgerRowFor 0 ⟨"44.9778", "-93.265", 10, 3⟩ det)) :=
  C2_all_rows_when_no_valid_name _ _ _ _ (by decide)

/-- C3: on an append of a chunk captured at time `t` (capture times
nondecreasing), a flush occurs exactly when the buffer length equals
`BUFFER_SIZE` after the append step — equivalently from the
`BUFFER_SIZE`-th append onwards, since the buffer is never cleared — and
the flushed filename is generated from the buffer head's capture
timestamp, which is the earliest (minimum) buffered timestamp. -/
theorem C3_flush_iff_full_named_from_earliest (α : Type) (B : Nat) (inputs : List (α × Nat))
    (c : α) (t : Nat) (hB : 1 ≤ B)
    (hchron : List.Sorted (· ≤ ·) (inputs.map Prod.snd ++ [t])) :
    ((recordStep B (recordRun B inputs) c t).2.isSome ↔
        (recordStep B (recordRun B inputs) c t).1.audio_buffer.length = B) ∧
      ((recordStep B (recordRun B inputs) c t).1.audio_buffer.length = B ↔
        B ≤ inputs.length + 1) ∧
      (recordStep B (recordRun B inputs) c t).1.timestamps.min? =
        (recordStep B (recordRun B inputs) c t).1.timestamps.head? ∧
      (recordStep B (recordRun B inputs) c t).2 =
        (if B ≤ inputs.length + 1 then
          some (recording_filename
              ((recordStep B (recordRun B inputs) c t).1.timestamps.headD 0),
            (recordStep B (recordRun B inputs) c t).1.audio_buffer)
        else none) := by
  have hstep1 : (recordStep B (recordRun B inputs) c t).1 = recordRun B (inputs ++ [(c, t)]) := by
    simp [recordRun, List.foldl_append]
  have hchar := recordRun_eq_drop B (inputs ++ [(c, t)])
  have hblen : (recordStep B (recordRun B inputs) c t).1.audio_buffer.length =
      min (inputs.length + 1) B := by
    rw [hstep1, hchar.1, List.length_drop, List.length_map, List.length_append,
      List.length_cons, List.length_nil]
    omega
  have htlen : (recordStep B (recordRun B inputs) c t).1.timestamps.length =
      min (inputs.length + 1) B := by
    rw [hstep1, hchar.2, List.length_drop, List.length_map, List.length_append,
      List.length_cons, List.length_nil]
    omega
  have hout : (recordStep B (recordRun B inputs) c t).2 =
      (if (recordStep B (recordRun B inputs) c t).1.audio_buffer.length = B then
        (recordStep B (recordRun B inputs) c t).1.timestamps.head?.map
          (fun t0 => (recording_filename t0,
            (recordStep B (recordRun B inputs) c t).1.audio_buffer))
      else none) := rfl
  have hsorted : List.Sorted (· ≤ ·) (recordStep B (recordRun B inputs) c t).1.timestamps := by
    rw [hstep1, hchar.2, List.map_append, List.map_cons, List.map_nil]
    exact List.Pairwise.sublist (List.drop_sublist _ _) hchron
  refine ⟨?_, by omega, sorted_min_eq_head _ hsorted, ?_⟩
  · rw [hout]
    by_cases hfull : (recordStep B (recordRun B inputs) c t).1.audio_buffer.length = B
    · rw [if_pos hfull]
      cases hts : (recordStep B (recordRun B inputs) c t).1.timestamps with
      | nil => rw [hts] at htlen; simp at htlen; omega
      | cons a l => simp [hfull]
    · simp [hfull]
  · rw [hout]
    by_cases hle : B ≤ inputs.length + 1
    · rw [if_pos hle, if_pos (by omega)]
      cases hts : (recordStep B (recordRun B inputs) c t).1.timestamps with
      | nil => rw [hts] at htlen; simp at htlen; omega
      | cons a l => rfl
    · rw [if_neg hle, if_neg (by omega)]

/-- C3 witness: with `BUFFER_SIZE = 2`, the second append (chunk `1` at
time `7` after chunk `0` at time `5`) flushes, and the file is named from
timestamp `5`, the earliest buffered capture time. -/
theorem C3_witness :
    (recordStep 2 (recordRun 2 [((0 : Nat), 5)]) 1 7).2 =
      (if 2 ≤ [((0 : Nat), 5)].length + 1 then
        some (recording_filename
            ((recordStep 2 (recordRun 2 [((0 : Nat), 5)]) 1 7).1.timestamps.headD 0),
          (recordStep 2 (recordRun 2 [((0 : Nat), 5)]) 1 7).1.audio_buffer)
      else none) :=
  (C3_flush_iff_full_named_from_earliest Nat 2 [(0, 5)] 1 7 (by decide) (by decide)).2.2.2

/-- C4: after `N` appends the buffer length is `min N BUFFER_SIZE`, and
both parallel lists hold exactly the most recently appended chunks and
capture times, in append (capture) order. -/
theorem C4_buffer_sliding_window (α : Type) (B : Nat) (inputs : List (α × Nat))
    (hB : 1 ≤ B) :
    (recordRun B inputs).audio_buffer.length = min inputs.length B ∧
      (recordRun B inputs).audio_buffer = (inputs.map Prod.fst).drop (inputs.length - B) ∧
      (recordRun B inputs).timestamps = (inputs.map Prod.snd).drop (inputs.length - B) := by
  have h := recordRun_eq_drop B inputs
  refine ⟨?_, h.1, h.2⟩
  rw [h.1, List.length_drop, List.length_map]
  omega

/-- C4 witness: three appends into a 2-slot buffer keep the last two
chunks in order. -/
theorem C4_witness :
    (recordRun 2 [((10 : Nat), 1), (20, 2), (30, 3)]).audio_buffer =
      ([((10 : Nat), 1), (20, 2), (30, 3)].map Prod.fst).drop
        ([((10 : Nat), 1), (20, 2), (30, 3)].length - 2) :=
  (C4_buffer_sliding_window Nat 2 [(10, 1), (20, 2), (30, 3)] (by decide)).2.1

/-- C5: parsing (with format `YYYYMMDD_HHMMSS`, after stripping `".wav"`)
the filename the Recorder produces from a whole-second capture timestamp
`t` yields back exactly `t` — for every timestamp the 4-digit year field
can carry, i.e. up to 9999-12-31T23:59:59. -/
theorem C5_filename_roundtrip (t : Nat) (h : t ≤ 253402300799) :
    parse_wav_timestamp (recording_filename t) = some t :=
  parse_recording_filename t h

/-- C5 witness: the name generated for 2025-01-01T12:00:00 parses back to
the same timestamp. -/
theorem C5_witness :
    parse_wav_timestamp (recording_filename 1735732800) = some 1735732800 :=
  C5_filename_roundtrip 1735732800 (by decide)

/-- C6: when the classifier returns the empty list, no data row is
appended to the ledger for that file and the source file is still deleted
afterwards. -/
theorem C6_empty_detections_no_rows_file_deleted (classify : String → List Detection)
    (now : Nat) (cfg : Config) (st : PollerState) (wav : String)
    (hcl : classify wav = []) (hnodup : st.files.Nodup) :
    ((process_wav_file classify now cfg st wav).ledger.getD []).filter CsvRecord.isData =
        (st.ledger.getD []).filter CsvRecord.isData ∧
      (process_wav_file classify now cfg st wav).files = st.files.erase wav ∧
      wav ∉ (process_wav_file classify now cfg st wav).files := by
  refine ⟨?_, rfl, ?_⟩
  · simp only [process_wav_file, hcl, Option.getD_some]
    exact update_ledger_nil_filter _ _ _
  · exact hnodup.not_mem_erase

/-- C6 witness: a file whose classification is empty leaves the ledger
without data rows and is removed from the recordings directory. -/
theorem C6_witness :
    "a.wav" ∉ (process_wav_file (fun _ => []) 0 ⟨"44.9778", "-93.265", 10, 3⟩
        ⟨["a.wav"], none⟩ "a.wav").files :=
  (C6_empty_detections_no_rows_file_deleted (fun _ => []) 0 ⟨"44.9778", "-93.265", 10, 3⟩
    ⟨["a.wav"], none⟩ "a.wav" rfl (by decide)).2.2

/-- C7: each `update_ledger` call appends the header exactly when the
ledger file does not exist at the moment of the call (also for calls that
write zero data rows, since append-mode open creates the file), so across
any non-empty sequence of calls starting with no file the final ledger
contains exactly one header record, written by the first call at the very
front. -/
theorem C7_header_iff_absent_and_once (cfg : Config) :
    (∀ (dets : List Detection) (t : Nat) (file : Option (List CsvRecord)),
        (update_ledger dets t cfg file).countP (fun r => !r.isData) =
          (file.getD []).countP (fun r => !r.isData) + (if file.isSome then 0 else 1)) ∧
      ∀ calls : List (List Detection × Nat), calls ≠ [] →
        ((ledgerFileAfter cfg calls).getD []).countP (fun r => !r.isData) = 1 ∧
          ((ledgerFileAfter cfg calls).getD []).head? = some CsvRecord.header := by
  refine ⟨fun dets t file => update_ledger_header_count dets t cfg file, ?_⟩
  intro calls hne
  cases calls with
  | nil => exact absurd rfl hne
  | cons c rest =>
    rw [ledgerFileAfter, List.foldl_cons]
    apply ledgerFileAfter_aux
    · rw [update_ledger_header_count]
      simp
    · exact update_ledger_head_none _ _ _

/-- C7 witness: a single call that writes zero detection rows still
creates the file with exactly one header. -/
theorem C7_witness :
    ((ledgerFileAfter ⟨"44.9778", "-93.265", 10, 3⟩ [([], 0)]).getD []).countP
      (fun r => !r.isData) = 1 :=
  ((C7_header_iff_absent_and_once ⟨"44.9778", "-93.265", 10, 3⟩).2 [([], 0)]
    (by decide)).1

/-- C8: the remembered name always equals the most recent fetch this
component performed; a poll of a non-empty ledger fetches exactly when the
last row's scientific name is non-empty and differs from that name; and
for last-row names "Turdus migratorius", "Turdus migratorius",
"Corvus corax" across three polls exactly two fetches occur, for
"Turdus migratorius" then "Corvus corax". -/
theorem C8_change_only_fetch :
    (∀ polls : List (List LedgerRow),
        (monitorRun polls).1 = (monitorRun polls).2.getLast?) ∧
      (∀ (polls : List (List LedgerRow)) (rows : List LedgerRow),
        (monitorRun (polls ++ [rows])).2 =
          (monitorRun polls).2 ++
            (match rows.getLast? with
             | none => []
             | some row =>
               if row.scientific_name ≠ "" ∧
                   some row.scientific_name ≠ (monitorRun polls).2.getLast? then
                 [row.scientific_name]
               else [])) ∧
      (monitorRun
          [[⟨"2025-01-01", "06:00:00", "06:00:30", "44.9778", "-93.265", "American Robin",
              "Turdus migratorius", "0.8"⟩],
            [⟨"2025-01-01", "06:00:00", "06:00:30", "44.9778", "-93.265", "American Robin",
              "Turdus migratorius", "0.8"⟩],
            [⟨"2025-01-01", "06:01:00", "06:01:30", "44.9778", "-93.265", "Common Raven",
              "Corvus corax", "0.9"⟩]]).2 = ["Turdus migratorius", "Corvus corax"] := by
  have h1 : ∀ polls : List (List LedgerRow),
      (monitorRun polls).1 = (monitorRun polls).2.getLast? :=
    fun polls => monitorRun_last_eq_fetch polls (none, []) rfl
  refine ⟨h1, ?_, by decide⟩
  intro polls rows
  have hsnoc : monitorRun (polls ++ [rows]) = monitorStepAcc (monitorRun polls) rows := by
    simp [monitorRun, List.foldl_append]
  rw [hsnoc]
  simp only [monitorStepAcc, pollStep, h1 polls]
  cases hr : rows.getLast? with
  | none => simp
  | some row =>
    dsimp only
    split_ifs with hcond
    · simp [Option.toList]
    · simp

/-- C9: a discovered basename that does not parse in the
`YYYYMMDD_HHMMSS` format makes `process_wav_file` fall back to the current
wall-clock time as the file's timestamp; processing then continues
normally — the classifier runs, the ledger is updated with the wall-clock
timestamp, and the file is deleted. -/
theorem C9_parse_failure_wall_clock_fallback (classify : String → List Detection)
    (now : Nat) (cfg : Config) (st : PollerState) (wav : String)
    (h : parse_wav_timestamp (os_path_basename wav) = none) :
    process_wav_file classify now cfg st wav =
      { files := st.files.erase wav,
        ledger := some (update_ledger (classify wav) now cfg st.ledger) } := by
  simp only [process_wav_file, h]

/-- C9 witness: the misnamed file "not-a-timestamp.wav" takes the
wall-clock fallback and is still processed and deleted. -/
theorem C9_witness :
    process_wav_file (fun _ => [⟨"American Robin", "Turdus migratorius", "0.8"⟩])
        12345 ⟨"44.9778", "-93.265", 10, 3⟩ ⟨["not-a-timestamp.wav"], none⟩
        "not-a-timestamp.wav" =
      { files := (["not-a-timestamp.wav"] : List String).erase "not-a-timestamp.wav",
        ledger := some (update_ledger [⟨"American Robin", "Turdus migratorius", "0.8"⟩]
          12345 ⟨"44.9778", "-93.265", 10, 3⟩ none) } :=
  C9_parse_failure_wall_clock_fallback _ 12345 _ _ "not-a-timestamp.wav" (by decide)

/-- C10 counterexample: with `CHUNK_DURATION * BUFFER_SIZE = 90000`
seconds (more than one day) and start timestamp 0, the row's interval
crosses midnight, yet the written `end_Time` "01:00:00" is a later
time-of-day than `start_Time` "00:00:00" — so the claim's "whenever the
interval crosses midnight the end_Time is an earlier time-of-day" fails
as stated for unrestricted configurations. -/
theorem C10_counterexample :
    update_ledger [⟨"A", "B", "0.5"⟩] 0 ⟨"44.9778", "-93.265", 90000, 1⟩ none =
        [CsvRecord.header,
          CsvRecord.data (ledgerRowFor 0 ⟨"44.9778", "-93.265", 90000, 1⟩ ⟨"A", "B", "0.5"⟩)] ∧
      (ledgerRowFor 0 ⟨"44.9778", "-93.265", 90000, 1⟩ ⟨"A", "B", "0.5"⟩).end_Time =
        "01:00:00" ∧
      (ledgerRowFor 0 ⟨"44.9778", "-93.265", 90000, 1⟩ ⟨"A", "B", "0.5"⟩).start_Time =
        "00:00:00" ∧
      (0 + 90000 * 1) / 86400 ≠ 0 / 86400 ∧
      ¬((0 + 90000 * 1) % 86400 < 0 % 86400) := by
  decide

/-- C10 (amended): every row `update_ledger` writes carries an `end_Time`
that is only the time-of-day string of start + `CHUNK_DURATION *
BUFFER_SIZE`, a `date` that is the start timestamp's date, and the start
time-of-day; provided the interval is shorter than one day (86400 s), a
midnight crossing therefore makes the written end time-of-day strictly
earlier than the start time-of-day while the date still shows the start
date. -/
theorem C10_end_time_time_of_day_only (t : Nat) (cfg : Config) (det : Detection)
    (hdur : cfg.CHUNK_DURATION * cfg.BUFFER_SIZE < 86400) :
    (ledgerRowFor t cfg det).end_Time =
        ⟨pad2 ((t + cfg.CHUNK_DURATION * cfg.BUFFER_SIZE) % 86400 / 3600) ++ [':'] ++
          pad2 ((t + cfg.CHUNK_DURATION * cfg.BUFFER_SIZE) % 3600 / 60) ++ [':'] ++
          pad2 ((t + cfg.CHUNK_DURATION * cfg.BUFFER_SIZE) % 60)⟩ ∧
      (ledgerRowFor t cfg det).date = strftime_Ymd (datetime_fromtimestamp t) ∧
      (ledgerRowFor t cfg det).start_Time =
        ⟨pad2 (t % 86400 / 3600) ++ [':'] ++ pad2 (t % 3600 / 60) ++ [':'] ++
          pad2 (t % 60)⟩ ∧
      ((t + cfg.CHUNK_DURATION * cfg.BUFFER_SIZE) / 86400 ≠ t / 86400 →
        (t + cfg.CHUNK_DURATION * cfg.BUFFER_SIZE) % 86400 < t % 86400) := by
  refine ⟨rfl, rfl, rfl, fun hcross => ?_⟩
  omega

/-- C10 witness: a 500-second recording starting at 86000 s crosses
midnight and its end time-of-day (00:01:40) is earlier than its start
time-of-day (23:53:20). -/
theorem C10_witness :
    (86000 + 500 * 1) % 86400 < 86000 % 86400 :=
  (C10_end_time_time_of_day_only 86000 ⟨"44.9778", "-93.265", 500, 1⟩ ⟨"A", "B", "0.5"⟩
    (by decide)).2.2.2 (by decide)

end DESN
